import Mathlib

/-!
Verification of the CAT3626 six-channel LED dimmer driver (`src/cat3626.c`)
against its natural-language specification.  The development below is a
shallow embedding of the driver's register-update algorithm, brightness
quantization, configuration and teardown paths.

Modelling conventions:
* Machine bytes are `Nat` values; where the C code truncates a wider value
  to a byte (`char` / `u8` parameter), the model takes the value modulo 256.
* The i2c bus is modelled by the four chip registers (`ChipRegs`) together
  with the explicit list of byte writes a call performs.  The enable-register
  read is modelled by the raw signed 32-bit return value (`Int`) of
  `i2c_smbus_read_byte_data`: values `0..255` are successful reads, negative
  values are bus errors.  The C code stores this return value into a `char`
  without any error check, i.e. it keeps only the low byte (`lowByte`).
* `led_classdev_register` is modelled by an oracle `regRet : Nat → Int`
  giving the return value of the registration of each channel index.
* The array `data->leds` is modelled as a function `Nat → cat3626_led`
  (index `i` standing for `data->leds[i]`); the `partner` pointer
  `data->leds + j` is modelled by the sibling index `j`.  The fields
  `client`, `name` and the `work_struct` carry no register state and are
  omitted; scheduling and cancellation of the per-channel work item are
  tracked through the index lists returned by the lifecycle operations.
-/

namespace Cat3626

/-- Register addresses: `#define ADDR_REG_A 0`. -/
def ADDR_REG_A : Nat := 0

/-- Register addresses: `#define ADDR_REG_B 1`. -/
def ADDR_REG_B : Nat := 1

/-- Register addresses: `#define ADDR_REG_C 2`. -/
def ADDR_REG_C : Nat := 2

/-- Register addresses: `#define ADDR_REGEN 3`. -/
def ADDR_REGEN : Nat := 3

/-- Model of `struct led_classdev`: the two fields the driver writes. -/
structure led_classdev where
  brightness : Nat
  max_brightness : Nat
  deriving Repr, DecidableEq

/-- Model of `struct cat3626_led`: the channel id, the address of the shared
current register (`i2c_reg`), the present requested register value, the
partner channel (modelled by its array index) and the embedded classdev. -/
structure cat3626_led where
  id : Nat
  i2c_reg : Nat
  present_reg_value : Nat
  partner : Nat
  ldev : led_classdev
  deriving Repr, DecidableEq

/-- Zero-initialized channel record, as produced by the `devm_kzalloc` of
`cat3626_probe`. -/
def initLed : cat3626_led :=
  { id := 0, i2c_reg := 0, present_reg_value := 0, partner := 0,
    ldev := { brightness := 0, max_brightness := 0 } }

/-- Zero-initialized led array of a freshly probed chip. -/
def initLeds : Nat → cat3626_led := fun _ => initLed

/-- The four byte registers of one CAT3626 chip: the three shared current
registers `A`, `B`, `C` and the enable register. -/
@[ext]
structure ChipRegs where
  regA : Nat
  regB : Nat
  regC : Nat
  enable : Nat
  deriving Repr, DecidableEq

/-- One byte write on the bus, as issued by
`i2c_smbus_write_byte_data(client, regAddr, value)`. -/
structure Write where
  regAddr : Nat
  value : Nat
  deriving Repr, DecidableEq

/-- Effect of one byte write on the chip registers. -/
def writeReg (st : ChipRegs) (addr v : Nat) : ChipRegs :=
  if addr = ADDR_REG_A then { st with regA := v }
  else if addr = ADDR_REG_B then { st with regB := v }
  else if addr = ADDR_REG_C then { st with regC := v }
  else if addr = ADDR_REGEN then { st with enable := v }
  else st

/-- The shared current register of index `k` (`A = 0`, `B = 1`, `C = 2`). -/
def currentReg (st : ChipRegs) (k : Nat) : Nat :=
  if k = 0 then st.regA else if k = 1 then st.regB else st.regC

/-- Low byte of a signed 32-bit value, as kept by the C assignment
`char reg = i2c_smbus_read_byte_data(...)`. -/
def lowByte (x : Int) : Nat := (x % 256).toNat

/-- The enable byte computed by `cat3626_setled` from the byte it read:
`toset &= ~(1 << led->id)` when `0 == led->present_reg_value`, else
`toset |= 1 << led->id` (`char` arithmetic, so only the low 8 bits remain). -/
def newEnable (reg id level : Nat) : Nat :=
  if level = 0 then reg &&& (255 ^^^ (1 <<< id)) else reg ||| (1 <<< id)

/-- Model of `cat3626_setled` (run under `data->update_lock`): `readRet` is
the raw return value of the `ADDR_REGEN` read.  Returns the chip registers
after the call together with the list of bus writes the call performed:
the enable register is written only when the computed byte differs from the
byte read, and the shared current register is written only when
`led->present_reg_value > 0`. -/
def cat3626_setled (st : ChipRegs) (readRet : Int) (led : cat3626_led) :
    ChipRegs × List Write :=
  let reg := lowByte readRet
  let toset := newEnable reg led.id led.present_reg_value
  let step1 : ChipRegs × List Write :=
    if toset ≠ reg then (writeReg st ADDR_REGEN toset, [⟨ADDR_REGEN, toset⟩])
    else (st, [])
  if 0 < led.present_reg_value then
    (writeReg step1.1 led.i2c_reg (led.present_reg_value % 256),
     step1.2 ++ [⟨led.i2c_reg, led.present_reg_value % 256⟩])
  else step1

/-- One successful apply of a channel: `cat3626_setled` where the
enable-register read returns the chip's live enable byte. -/
def cat3626_apply (st : ChipRegs) (led : cat3626_led) : ChipRegs :=
  (cat3626_setled st (st.enable : Int) led).1

/-- Model of `cat3626_brightness_set`: drop the low 3 bits of the requested
value (`value >>= 3`), clamp to 39, and store the result in
`present_reg_value`.  The `schedule_work` call defers `cat3626_setled`,
which is modelled separately by `cat3626_apply`. -/
def cat3626_brightness_set (led : cat3626_led) (value : Nat) : cat3626_led :=
  let value := value >>> 3
  let value := if value > 39 then 39 else value
  { led with present_reg_value := value }

/-- Model of `cat3626_destroy_devices`: the return value paired with the
list of indices `i` of `data->leds` for which
`led_classdev_unregister(&data->leds[i].ldev)` and
`cancel_work_sync(&data->leds[i].work)` are called.  The source sets
`int i = n_devs;` and touches only that single index. -/
def cat3626_destroy_devices (dataPresent : Bool) (n_devs : Nat) :
    Int × List Nat :=
  if !dataPresent then (-22, [])
  else (0, [n_devs])

/-- The `cat3626` entry of `cat3626_chip_info_tbl` has `num_leds = 6`. -/
def num_leds : Nat := 6

/-- Update of the led array at index `i` (function-as-array model). -/
def updLed (leds : Nat → cat3626_led) (i : Nat)
    (f : cat3626_led → cat3626_led) : Nat → cat3626_led :=
  fun j => if j = i then f (leds j) else leds j

/-- One iteration of the pairing loop of `cat3626_configure` at even `i`:
`leds[i].partner = leds + i + 1; leds[i + 1].partner = leds + i;` and
`leds[i].i2c_reg = leds[i + 1].i2c_reg = i >> 1`. -/
def setPair (leds : Nat → cat3626_led) (i : Nat) : Nat → cat3626_led :=
  let leds :=
    updLed leds i fun l => { l with partner := i + 1, i2c_reg := i >>> 1 }
  updLed leds (i + 1) fun l => { l with partner := i, i2c_reg := i >>> 1 }

/-- The pairing loop `for (i = 0; i < num_leds; i += 2)`: with
`num_leds = 6` the body runs for `i = 0, 2, 4`. -/
def pairingLoop (leds : Nat → cat3626_led) : Nat → cat3626_led :=
  [0, 2, 4].foldl setPair leds

/-- Outcome of `cat3626_configure`: the returned error code, the final led
array, the channel indices successfully registered with
`led_classdev_register` (in loop order), and the indices handed to
unregister/cancel by the rollback call `cat3626_destroy_devices(data, i)`
on the error path. -/
structure ConfigOutcome where
  err : Int
  leds : Nat → cat3626_led
  registered : List Nat
  unregistered : List Nat

/-- The registration loop `for (i = 0; i < num_leds; i++)` of
`cat3626_configure`, over the list of remaining indices.  Each step sets
`led->id = i`, `led->ldev.brightness = LED_OFF`,
`led->ldev.max_brightness = (39 << 3)`, then calls `led_classdev_register`
(the oracle `regRet`): on a negative result control jumps to `exit`, which
calls `cat3626_destroy_devices(data, i)` and returns the error; otherwise
the loop calls `cat3626_setled(led)` (bus writes only, which do not change
the led record) and continues. -/
def regLoop (regRet : Nat → Int) :
    List Nat → (Nat → cat3626_led) → ConfigOutcome
  | [], leds => { err := 0, leds := leds, registered := [], unregistered := [] }
  | i :: rest, leds =>
    let leds := updLed leds i fun l =>
      { l with id := i,
               ldev := { brightness := 0, max_brightness := 39 <<< 3 } }
    if regRet i < 0 then
      { err := regRet i, leds := leds, registered := [],
        unregistered := (cat3626_destroy_devices true i).2 }
    else
      let out := regLoop regRet rest leds
      { out with registered := i :: out.registered }

/-- Model of `cat3626_configure` for the `cat3626` chip (`num_leds = 6`):
the pairing loop followed by the registration loop over indices `0..5`. -/
def cat3626_configure (regRet : Nat → Int) (leds : Nat → cat3626_led) :
    ConfigOutcome :=
  regLoop regRet [0, 1, 2, 3, 4, 5] (pairingLoop leds)

/-- Model of `cat3626_remove`: it calls
`cat3626_destroy_devices(data, data->chip_info->num_leds)` with the chip's
channel count (6) and propagates a nonzero error. -/
def cat3626_remove : Int × List Nat :=
  let r := cat3626_destroy_devices true num_leds
  (if r.1 ≠ 0 then r.1 else 0, r.2)

/-- Registration oracle failing exactly at channel 2 (error `-5`). -/
def regFailAt2 : Nat → Int := fun i => if i = 2 then -5 else 0

/-- Channel record with a pending nonzero level, used to evaluate
`cat3626_setled` on a failed enable-register read. -/
def errLed : cat3626_led :=
  { id := 3, i2c_reg := 1, present_reg_value := 10, partner := 2,
    ldev := { brightness := 0, max_brightness := 312 } }

/-- Chip state with all registers zero. -/
def st0 : ChipRegs := { regA := 0, regB := 0, regC := 0, enable := 0 }

/-- Configured channel `2k` of pair `k` requesting level 10. -/
def ledOn10 (k : Nat) : cat3626_led :=
  { id := 2 * k, i2c_reg := k, present_reg_value := 10, partner := 2 * k + 1,
    ldev := { brightness := 0, max_brightness := 312 } }

/-- Configured channel `2k + 1` of pair `k` requesting level 0. -/
def ledOff0 (k : Nat) : cat3626_led :=
  { id := 2 * k + 1, i2c_reg := k, present_reg_value := 0, partner := 2 * k,
    ldev := { brightness := 0, max_brightness := 312 } }

/-- Concrete chip state with enable byte 5, used as a witness input. -/
def stW : ChipRegs := { regA := 0, regB := 0, regC := 0, enable := 5 }

/-- Concrete configured channel (id 2, shared register B, level 7), used as
a witness input. -/
def ledW : cat3626_led :=
  { id := 2, i2c_reg := 1, present_reg_value := 7, partner := 3,
    ldev := { brightness := 0, max_brightness := 312 } }

end Cat3626

namespace Cat3626

/-- Bit `j` of the single-bit mask `1 <<< id`. -/
lemma one_shiftLeft_testBit (id j : Nat) :
    (1 <<< id).testBit j = decide (id = j) := by
  rw [Nat.shiftLeft_eq, Nat.one_mul, Nat.testBit_two_pow]

/-- Bit `j` of the clearing mask `255 ^^^ (1 <<< id)` (the `char` value of
`~(1 << id)`). -/
lemma clearMask_testBit {id : Nat} (j : Nat) (hid : id < 8) :
    (255 ^^^ (1 <<< id)).testBit j = (decide (j < 8) && !decide (j = id)) := by
  have h1 : (255 : Nat) = 2 ^ 8 - 1 := by norm_num
  rw [Nat.testBit_xor, one_shiftLeft_testBit, h1, Nat.testBit_two_pow_sub_one]
  by_cases hj : j < 8
  · by_cases he : id = j
    · subst he; simp [hj]
    · have he2 : ¬j = id := by omega
      simp [hj, he, he2]
  · have he : ¬id = j := by omega
    have he2 : ¬j = id := by omega
    simp [hj, he, he2]

/-- Bit `id` of the computed enable byte: set iff the requested level is
nonzero. -/
lemma newEnable_testBit_self {reg id level : Nat} (hid : id < 8) :
    (newEnable reg id level).testBit id = decide (0 < level) := by
  unfold newEnable
  by_cases h : level = 0
  · simp [h, clearMask_testBit id hid]
  · have hpos : 0 < level := Nat.pos_of_ne_zero h
    simp [h, one_shiftLeft_testBit, hpos]

/-- Any bit other than `id` of the computed enable byte equals the
corresponding bit of the byte that was read. -/
lemma newEnable_testBit_other {reg id level : Nat} (j : Nat)
    (hreg : reg < 256) (hid : id < 8) (hne : j ≠ id) :
    (newEnable reg id level).testBit j = reg.testBit j := by
  unfold newEnable
  by_cases h : level = 0
  · simp only [if_pos h, Nat.testBit_and, clearMask_testBit j hid]
    by_cases hj : j < 8
    · simp [hj, hne]
    · have h256 : reg < 2 ^ j := by
        calc reg < 256 := hreg
        _ = 2 ^ 8 := by norm_num
        _ ≤ 2 ^ j := Nat.pow_le_pow_right (by norm_num) (by omega)
      simp [hj, Nat.testBit_lt_two_pow h256]
  · have hb : (1 <<< id).testBit j = false := by
      rw [one_shiftLeft_testBit]
      simp
      omega
    simp [h, hb]

/-- The computed enable value stays a byte. -/
lemma newEnable_lt {reg id level : Nat} (hreg : reg < 256) (hid : id < 8) :
    newEnable reg id level < 256 := by
  unfold newEnable
  by_cases h : level = 0
  · simp only [if_pos h]
    exact lt_of_le_of_lt Nat.and_le_left hreg
  · simp only [if_neg h]
    have hx : reg < 2 ^ 8 := by norm_num at hreg ⊢; omega
    have hy : 1 <<< id < 2 ^ 8 := by
      rw [Nat.shiftLeft_eq, Nat.one_mul]
      exact Nat.pow_lt_pow_right (by norm_num) hid
    have := Nat.or_lt_two_pow hx hy
    norm_num at this ⊢; omega

/-- Recomputing the enable byte from an already-updated byte changes
nothing: setting a set bit, or clearing a clear bit, is the identity. -/
lemma newEnable_idem (reg id level : Nat) :
    newEnable (newEnable reg id level) id level = newEnable reg id level := by
  unfold newEnable
  by_cases h : level = 0
  · simp only [if_pos h]
    rw [Nat.and_assoc, Nat.and_self]
  · simp only [if_neg h]
    rw [Nat.or_assoc, Nat.or_self]

/-- A write to a register other than the enable register leaves the enable
register unchanged. -/
lemma writeReg_enable {st : ChipRegs} {addr v : Nat}
    (h : addr ≠ ADDR_REGEN) : (writeReg st addr v).enable = st.enable := by
  unfold writeReg
  split_ifs <;> simp_all

/-- A write to the enable register stores the written byte. -/
lemma writeReg_enable_self {st : ChipRegs} {v : Nat} :
    (writeReg st ADDR_REGEN v).enable = v := by
  unfold writeReg ADDR_REG_A ADDR_REG_B ADDR_REG_C ADDR_REGEN
  norm_num

/-- Effect of one byte write on the current register of index `k < 3`. -/
lemma writeReg_currentReg (st : ChipRegs) (addr v k : Nat) (hk : k < 3) :
    currentReg (writeReg st addr v) k =
      if addr = k then v else currentReg st k := by
  unfold writeReg currentReg ADDR_REG_A ADDR_REG_B ADDR_REG_C ADDR_REGEN
  interval_cases k <;> split_ifs <;> simp_all

/-- The enable register after `cat3626_setled`: the computed byte when it
differs from the byte read, otherwise untouched.  Requires the channel's
current register not to alias the enable register. -/
lemma setled_fst_enable (st : ChipRegs) (readRet : Int) (led : cat3626_led)
    (h3 : led.i2c_reg ≠ ADDR_REGEN) :
    (cat3626_setled st readRet led).1.enable =
      if newEnable (lowByte readRet) led.id led.present_reg_value =
          lowByte readRet
      then st.enable
      else newEnable (lowByte readRet) led.id led.present_reg_value := by
  unfold cat3626_setled
  by_cases hlvl : 0 < led.present_reg_value <;>
    by_cases hne :
      newEnable (lowByte readRet) led.id led.present_reg_value =
        lowByte readRet <;>
      simp [hlvl, hne, writeReg_enable h3, writeReg_enable_self]

/-- The current register of index `k < 3` after `cat3626_setled`: written
with the (byte-truncated) level when the level is nonzero and the channel's
current register is `k`, otherwise untouched. -/
lemma setled_fst_currentReg (st : ChipRegs) (readRet : Int)
    (led : cat3626_led) (k : Nat) (hk : k < 3) :
    currentReg (cat3626_setled st readRet led).1 k =
      if 0 < led.present_reg_value ∧ led.i2c_reg = k
      then led.present_reg_value % 256
      else currentReg st k := by
  unfold cat3626_setled
  have h3k : (ADDR_REGEN = k) = False := by
    unfold ADDR_REGEN; simp; omega
  by_cases hlvl : 0 < led.present_reg_value <;>
    by_cases hne :
      newEnable (lowByte readRet) led.id led.present_reg_value =
        lowByte readRet <;>
      by_cases hik : led.i2c_reg = k <;>
        simp [hlvl, hne, hik, writeReg_currentReg, hk, h3k]

/-- On a successful read, `lowByte` returns the byte itself. -/
lemma lowByte_ofNat {e : Nat} (h : e < 256) : lowByte (e : Int) = e := by
  unfold lowByte
  omega

/-- The enable register after one successful apply is the computed enable
byte (whether or not the skipped write optimization fires). -/
lemma apply_enable (st : ChipRegs) (led : cat3626_led)
    (hen : st.enable < 256) (h3 : led.i2c_reg ≠ ADDR_REGEN) :
    (cat3626_apply st led).enable =
      newEnable st.enable led.id led.present_reg_value := by
  unfold cat3626_apply
  rw [setled_fst_enable st _ led h3, lowByte_ofNat hen]
  split_ifs with h
  · exact h.symm
  · rfl

/-- The current register of index `k < 3` after one successful apply. -/
lemma apply_currentReg (st : ChipRegs) (led : cat3626_led) (k : Nat)
    (hk : k < 3) :
    currentReg (cat3626_apply st led) k =
      if 0 < led.present_reg_value ∧ led.i2c_reg = k
      then led.present_reg_value % 256
      else currentReg st k := by
  unfold cat3626_apply
  exact setled_fst_currentReg st _ led k hk

/-- After one successful apply, the channel's own enable bit reflects its
requested level. -/
lemma apply_enable_testBit_self (st : ChipRegs) (led : cat3626_led)
    (hen : st.enable < 256) (hid : led.id < 8)
    (h3 : led.i2c_reg ≠ ADDR_REGEN) :
    (cat3626_apply st led).enable.testBit led.id =
      decide (0 < led.present_reg_value) := by
  rw [apply_enable st led hen h3]
  exact newEnable_testBit_self hid

/-- After one successful apply, every other enable bit is unchanged. -/
lemma apply_enable_testBit_other (st : ChipRegs) (led : cat3626_led)
    (j : Nat) (hen : st.enable < 256) (hid : led.id < 8)
    (h3 : led.i2c_reg ≠ ADDR_REGEN) (hj : j ≠ led.id) :
    (cat3626_apply st led).enable.testBit j = st.enable.testBit j := by
  rw [apply_enable st led hen h3]
  exact newEnable_testBit_other j hen hid hj

end Cat3626

namespace Cat3626

/-- C4: on a registration failure at channel 2 (channels 0 and 1 already
registered), `cat3626_configure` returns the error, but the rollback
unregisters and cancels only index 2 — the channel whose registration just
failed — leaving the already-registered channels 0 and 1 registered.  This
refutes the claim that every channel `0..i-1` is unregistered. -/
theorem C4_rollback_skips_registered_channels :
    (cat3626_configure regFailAt2 initLeds).err = -5 ∧
    (cat3626_configure regFailAt2 initLeds).registered = [0, 1] ∧
    (cat3626_configure regFailAt2 initLeds).unregistered = [2] ∧
    0 ∉ (cat3626_configure regFailAt2 initLeds).unregistered ∧
    1 ∉ (cat3626_configure regFailAt2 initLeds).unregistered := by
  decide

/-- C5: when the enable-register read fails with `-121` (a bus error), the
code stores the error's low byte `135` into `char reg`, treats it as the
enable value, and still performs two register writes (enable := `143`, then
current register `B` := `10`).  This refutes the claim that a failed read
makes the apply attempt perform no register writes. -/
theorem C5_failed_read_still_writes :
    (cat3626_setled st0 (-121) errLed).2 =
      [⟨ADDR_REGEN, 143⟩, ⟨1, 10⟩] ∧
    (cat3626_setled st0 (-121) errLed).2 ≠ [] := by
  decide

/-- C8: on removal the driver touches only index `num_leds = 6` of the led
array — `cat3626_destroy_devices` unregisters a single entry, not a loop —
so none of the six channels `0..5` is unregistered and the accessed index
is out of bounds. -/
theorem C8_remove_does_not_unregister_channels :
    cat3626_remove = (0, [6]) ∧
    List.all [0, 1, 2, 3, 4, 5]
      (fun ch => !(cat3626_remove.2.contains ch)) = true := by
  decide

/-- C10: the teardown path invoked from `cat3626_remove` accesses the led
array at index 6, which is not a valid index of the 6-element array
(valid indices are `0..5`). -/
theorem C10_teardown_uses_out_of_bounds_index :
    cat3626_remove.2 = [6] ∧ ¬(6 < num_leds) := by
  decide

end Cat3626

namespace Cat3626

/-- C1: for every chip state with a byte-valued enable register and every
configured channel (`id < 6`, `i2c_reg = id >> 1`), a successful apply
leaves enable bit `id` set iff `present_reg_value > 0`, and leaves every
other bit of the enable register exactly as it was read. -/
theorem C1_enable_bit_correct (st : ChipRegs) (led : cat3626_led)
    (hen : st.enable < 256) (hid : led.id < 6)
    (hreg : led.i2c_reg = led.id >>> 1) :
    ((cat3626_apply st led).enable.testBit led.id =
      decide (0 < led.present_reg_value)) ∧
    (∀ j, j ≠ led.id →
      (cat3626_apply st led).enable.testBit j = st.enable.testBit j) := by
  have hdiv : led.id >>> 1 = led.id / 2 := by
    rw [Nat.shiftRight_eq_div_pow]
  have h3 : led.i2c_reg ≠ ADDR_REGEN := by
    rw [hreg, hdiv]
    unfold ADDR_REGEN
    omega
  exact ⟨apply_enable_testBit_self st led hen (by omega) h3,
    fun j hj => apply_enable_testBit_other st led j hen (by omega) h3 hj⟩

/-- Witness for C1: chip with enable byte 5, channel 2 at level 7. -/
theorem C1_enable_bit_correct_witness :
    ((cat3626_apply stW ledW).enable.testBit 2 = decide (0 < (7 : Nat))) ∧
    ((cat3626_apply stW ledW).enable.testBit 0 = stW.enable.testBit 0) := by
  have h := C1_enable_bit_correct stW ledW (by decide) (by decide) (by decide)
  exact ⟨h.1, h.2 0 (by decide)⟩

/-- C2: for every requested brightness in 0..255, `cat3626_brightness_set`
stores exactly `min (raw >>> 3) 39` into `present_reg_value`, the stored
level is at most 39, and the 39 cap triggers exactly for raw values
of at least 320. -/
theorem C2_brightness_quantization (led : cat3626_led) (v : Nat)
    (hv : v ≤ 255) :
    (cat3626_brightness_set led v).present_reg_value = min (v >>> 3) 39 ∧
    (cat3626_brightness_set led v).present_reg_value ≤ 39 ∧
    (∀ w : Nat, 39 < w >>> 3 ↔ 320 ≤ w) := by
  have h8 : v >>> 3 = v / 8 := by
    rw [Nat.shiftRight_eq_div_pow]
  refine ⟨?_, ?_, ?_⟩
  · simp only [cat3626_brightness_set]
    rw [h8, Nat.min_def]
    split_ifs <;> omega
  · simp only [cat3626_brightness_set]
    split_ifs <;> omega
  · intro w
    have hw : w >>> 3 = w / 8 := by rw [Nat.shiftRight_eq_div_pow]
    rw [hw]
    omega

/-- Witness for C2 at raw value 255: the stored level is `255 >>> 3 = 31`. -/
theorem C2_brightness_quantization_witness :
    (cat3626_brightness_set initLed 255).present_reg_value =
      min (255 >>> 3) 39 :=
  (C2_brightness_quantization initLed 255 (by decide)).1

/-- C6: applying channel `2k` at level 10 and then its partner `2k + 1` at
level 0 leaves the enable bit of channel `2k` set and the shared current
register of index `k` holding 10 — a level-0 apply writes no current
register, so the partner's nonzero value is preserved. -/
theorem C6_shared_register_independence (st : ChipRegs) (k : Nat)
    (hk : k < 3) (hen : st.enable < 256) :
    ((cat3626_apply (cat3626_apply st (ledOn10 k))
        (ledOff0 k)).enable.testBit (2 * k) = true) ∧
    currentReg (cat3626_apply (cat3626_apply st (ledOn10 k)) (ledOff0 k)) k
      = 10 := by
  have h3a : (ledOn10 k).i2c_reg ≠ ADDR_REGEN := by
    simp only [ledOn10, ADDR_REGEN]
    omega
  have h3b : (ledOff0 k).i2c_reg ≠ ADDR_REGEN := by
    simp only [ledOff0, ADDR_REGEN]
    omega
  have hen1 : (cat3626_apply st (ledOn10 k)).enable < 256 := by
    rw [apply_enable st _ hen h3a]
    exact newEnable_lt hen (by simp only [ledOn10]; omega)
  constructor
  · rw [apply_enable_testBit_other _ _ _ hen1 (by simp only [ledOff0]; omega)
      h3b (by simp only [ledOff0]; omega)]
    have h := apply_enable_testBit_self st (ledOn10 k) hen
      (by simp only [ledOn10]; omega) h3a
    simpa [ledOn10] using h
  · rw [apply_currentReg _ _ k hk,
      if_neg (by simp [ledOff0]),
      apply_currentReg st _ k hk,
      if_pos (by simp [ledOn10])]
    simp [ledOn10]

/-- Witness for C6 at pair 0 from the all-zero chip state. -/
theorem C6_shared_register_independence_witness :
    ((cat3626_apply (cat3626_apply st0 (ledOn10 0))
        (ledOff0 0)).enable.testBit 0 = true) ∧
    currentReg (cat3626_apply (cat3626_apply st0 (ledOn10 0)) (ledOff0 0)) 0
      = 10 := by
  have h := C6_shared_register_independence st0 0 (by decide) (by decide)
  simpa using h

/-- C7: applying the same configured channel twice in a row with no
intervening brightness change leaves every register value unchanged after
the second call: the recomputed enable byte equals the byte read (so the
enable write is skipped) and the current-register write, if any, rewrites
the same level. -/
theorem C7_apply_idempotent (st : ChipRegs) (led : cat3626_led)
    (hen : st.enable < 256) (hid : led.id < 6)
    (hreg : led.i2c_reg = led.id >>> 1) :
    cat3626_apply (cat3626_apply st led) led = cat3626_apply st led := by
  have hdiv : led.id >>> 1 = led.id / 2 := by
    rw [Nat.shiftRight_eq_div_pow]
  have h3 : led.i2c_reg ≠ ADDR_REGEN := by
    rw [hreg, hdiv]
    unfold ADDR_REGEN
    omega
  have hen1 : (cat3626_apply st led).enable < 256 := by
    rw [apply_enable st led hen h3]
    exact newEnable_lt hen (by omega)
  have hE : (cat3626_apply (cat3626_apply st led) led).enable =
      (cat3626_apply st led).enable := by
    rw [apply_enable _ led hen1 h3, apply_enable st led hen h3,
      newEnable_idem]
  have hC : ∀ k, k < 3 →
      currentReg (cat3626_apply (cat3626_apply st led) led) k =
        currentReg (cat3626_apply st led) k := by
    intro k hk
    rw [apply_currentReg _ led k hk, apply_currentReg st led k hk]
    split_ifs <;> rfl
  have h0 := hC 0 (by norm_num)
  have h1 := hC 1 (by norm_num)
  have h2 := hC 2 (by norm_num)
  simp only [currentReg] at h0 h1 h2
  norm_num at h0 h1 h2
  exact ChipRegs.ext h0 h1 h2 hE

/-- Witness for C7: channel 2 at level 7 applied twice from the enable-5
chip state. -/
theorem C7_apply_idempotent_witness :
    cat3626_apply (cat3626_apply stW ledW) ledW = cat3626_apply stW ledW :=
  C7_apply_idempotent stW ledW (by decide) (by decide) (by decide)

end Cat3626

namespace Cat3626

/-- C3: when every host registration succeeds, configure succeeds and each
pair `k < 3` is wired as in the source's pairing loop: channels `2k` and
`2k + 1` both carry shared register index `k` (equal to their `id >> 1`),
channel `2k`'s partner is `2k + 1` and channel `2k + 1`'s partner is `2k`. -/
theorem C3_pairing_invariant (regRet : Nat → Int)
    (h : ∀ i, ¬regRet i < 0) :
    (cat3626_configure regRet initLeds).err = 0 ∧
    ∀ k, k < 3 →
      ((cat3626_configure regRet initLeds).leds (2 * k)).i2c_reg = k ∧
      ((cat3626_configure regRet initLeds).leds (2 * k + 1)).i2c_reg = k ∧
      ((cat3626_configure regRet initLeds).leds (2 * k)).partner
        = 2 * k + 1 ∧
      ((cat3626_configure regRet initLeds).leds (2 * k + 1)).partner
        = 2 * k ∧
      ((cat3626_configure regRet initLeds).leds (2 * k)).i2c_reg =
        ((cat3626_configure regRet initLeds).leds (2 * k)).id >>> 1 ∧
      ((cat3626_configure regRet initLeds).leds (2 * k + 1)).i2c_reg =
        ((cat3626_configure regRet initLeds).leds (2 * k + 1)).id >>> 1 := by
  have h0 := h 0
  have h1 := h 1
  have h2 := h 2
  have h3 := h 3
  have h4 := h 4
  have h5 := h 5
  constructor
  · simp [cat3626_configure, regLoop, h0, h1, h2, h3, h4, h5]
  · intro k hk
    interval_cases k <;>
      refine ⟨?_, ?_, ?_, ?_, ?_, ?_⟩ <;>
        (simp only [cat3626_configure, regLoop, h0, h1, h2, h3, h4, h5,
          ite_true, ite_false]
         decide)

/-- Witness for C3 with an oracle whose registrations all succeed. -/
theorem C3_pairing_invariant_witness :
    (cat3626_configure (fun _ => 0) initLeds).err = 0 ∧
    ((cat3626_configure (fun _ => 0) initLeds).leds 0).partner = 1 ∧
    ((cat3626_configure (fun _ => 0) initLeds).leds 1).partner = 0 ∧
    ((cat3626_configure (fun _ => 0) initLeds).leds 0).i2c_reg = 0 := by
  have h := C3_pairing_invariant (fun _ => 0) (by intro i; norm_num)
  exact ⟨h.1, (h.2 0 (by decide)).2.2.1, (h.2 0 (by decide)).2.2.2.1,
    (h.2 0 (by decide)).1⟩

/-- C9: when every host registration succeeds, configure succeeds, every
channel's exposed maximum brightness is `39 << 3 = 312` and its initial
exposed brightness is `LED_OFF = 0`. -/
theorem C9_host_brightness_bounds (regRet : Nat → Int)
    (h : ∀ i, ¬regRet i < 0) :
    (cat3626_configure regRet initLeds).err = 0 ∧
    ∀ i, i < 6 →
      ((cat3626_configure regRet initLeds).leds i).ldev.max_brightness
        = 39 <<< 3 ∧
      ((cat3626_configure regRet initLeds).leds i).ldev.max_brightness
        = 312 ∧
      ((cat3626_configure regRet initLeds).leds i).ldev.brightness = 0 := by
  have h0 := h 0
  have h1 := h 1
  have h2 := h 2
  have h3 := h 3
  have h4 := h 4
  have h5 := h 5
  constructor
  · simp [cat3626_configure, regLoop, h0, h1, h2, h3, h4, h5]
  · intro i hi
    interval_cases i <;>
      refine ⟨?_, ?_, ?_⟩ <;>
        (simp only [cat3626_configure, regLoop, h0, h1, h2, h3, h4, h5,
          ite_true, ite_false]
         decide)

/-- Witness for C9 with an oracle whose registrations all succeed. -/
theorem C9_host_brightness_bounds_witness :
    (cat3626_configure (fun _ => 0) initLeds).err = 0 ∧
    ((cat3626_configure (fun _ => 0) initLeds).leds 0).ldev.max_brightness
      = 312 ∧
    ((cat3626_configure (fun _ => 0) initLeds).leds 0).ldev.brightness
      = 0 := by
  have h := C9_host_brightness_bounds (fun _ => 0) (by intro i; norm_num)
  exact ⟨h.1, (h.2 0 (by decide)).2.1, (h.2 0 (by decide)).2.2⟩

end Cat3626
